import Mathlib

/-!
Verification of the sst-laravel deployment-configuration resolver.

We shallowly embed the three cores of the repository:
* linked-resource environment resolution (`src/laravel-env.ts`,
  `applyLinkedResourcesToEnvironment` in `laravel-sst.ts`),
* the worker task / supervision-tree builder (`createWorkerTasks`),
* runtime cluster/task discovery (`findClusterArn` / `findTask`).

JavaScript objects are modelled as association lists in insertion order;
assignment (`obj[k] = v`) replaces the value in place when the key exists
and appends otherwise, so later writes win, which is exactly the spread /
`Object.assign` semantics the source relies on.  Pulumi `Output` values are
modelled as their resolved values.
-/

namespace SstLaravel

/-- JS substring containment: `hay.includes(needle)`. -/
def strContains (hay needle : String) : Bool :=
  decide (needle.toList <:+: hay.toList)

/-- ASCII lowercasing of one character, as `toLowerCase` acts on the ASCII
range the container names and service hints live in. -/
def charLower (c : Char) : Char :=
  if 'A' ≤ c ∧ c ≤ 'Z' then Char.ofNat (c.toNat + 32) else c

/-- JS `s.toLowerCase()` on ASCII strings: lowercase every character. -/
def strLower (s : String) : String :=
  ⟨s.data.map charLower⟩

/-- JS object property assignment `m[k] = v`: replace in place when the key
exists, append otherwise. -/
def objSet (m : List (String × α)) (k : String) (v : α) : List (String × α) :=
  if m.any (fun p => p.1 == k) then
    m.map (fun p => if p.1 == k then (k, v) else p)
  else m ++ [(k, v)]

/-- JS object spread `{...a, ...b}` / `Object.assign(a, b)`. -/
def objMerge (a b : List (String × α)) : List (String × α) :=
  b.foldl (fun acc p => objSet acc p.1 p.2) a

/-- JS object property read `m[k]`. -/
def objGet (m : List (String × α)) (k : String) : Option α :=
  (m.find? (fun p => p.1 == k)).map (·.2)

/-- Environment maps (`EnvType` in `src/laravel-env.ts`): a JS object from
variable names to (resolved) string values. -/
abbrev EnvMap := List (String × String)

/-- Resolved connection attributes shared by the `Postgres`, `Mysql` and
`Aurora` resource classes (`host`, `database`, `username`, `password`,
`port`). -/
structure DbAttrs where
  host : String
  database : String
  username : String
  password : String
  port : Nat
deriving DecidableEq, Repr

/-- Resolved attributes of a raw `pulumiAws.rds.Instance` resource, whose
host/database attributes are named `endpoint` / `dbName`. -/
structure RdsAttrs where
  endpoint : String
  dbName : String
  username : String
  password : String
  port : Nat
deriving DecidableEq, Repr

/-- Resolved attributes of a `Redis` resource. -/
structure RedisAttrs where
  host : String
  port : Nat
  password : String
deriving DecidableEq, Repr

/-- Linked resources (`LinkSupportedTypes` in `src/laravel-env.ts`), plus an
`unknown` constructor standing for a resource of a kind none of the
`instanceof` tests recognise. -/
inductive LinkResource
  | postgres (a : DbAttrs)
  | mysql (a : DbAttrs)
  | aurora (a : DbAttrs)
  | rdsInstance (a : RdsAttrs)
  | redis (a : RedisAttrs)
  | email
  | queue (url : String)
  | bucket (name : String)
  | unknown
deriving DecidableEq, Repr

/-- Argument domain of `applyDatabaseEnv` (`type Database = Postgres | Mysql
| Aurora | pulumiAws.rds.Instance`). -/
inductive Database
  | postgres (a : DbAttrs)
  | mysql (a : DbAttrs)
  | aurora (a : DbAttrs)
  | rdsInstance (a : RdsAttrs)
deriving DecidableEq, Repr

/-- Resolved value of `database.port` for each `Database` variant. -/
def Database.port : Database → Nat
  | .postgres a => a.port
  | .mysql a => a.port
  | .aurora a => a.port
  | .rdsInstance a => a.port

/-- Argument domain of `applyMySqlEnv` (`Mysql | Aurora |
pulumiAws.rds.Instance`). -/
inductive MySqlFamily
  | mysql (a : DbAttrs)
  | aurora (a : DbAttrs)
  | rdsInstance (a : RdsAttrs)
deriving DecidableEq, Repr

/-- Embedding of `applyPostgresEnv` (`src/laravel-env.ts`): the
postgres-family object literal, with the port serialised via `toString`.
Both admissible argument classes (`Postgres | Aurora`) carry the same
attribute names, so the function is stated over `DbAttrs`. -/
def applyPostgresEnv (database : DbAttrs) : EnvMap :=
  [("DB_CONNECTION", "pgsql"),
   ("DB_HOST", database.host),
   ("DB_DATABASE", database.database),
   ("DB_USERNAME", database.username),
   ("DB_PASSWORD", database.password),
   ("DB_PORT", toString database.port)]

/-- Embedding of `applyMySqlEnv` (`src/laravel-env.ts`): the mysql-family
object literal; the `instanceof Aurora || instanceof Mysql` ternaries pick
`host`/`database` for those classes and `endpoint`/`dbName` for a raw RDS
instance. -/
def applyMySqlEnv (database : MySqlFamily) : EnvMap :=
  match database with
  | .mysql a =>
    [("DB_CONNECTION", "mysql"),
     ("DB_HOST", a.host),
     ("DB_DATABASE", a.database),
     ("DB_USERNAME", a.username),
     ("DB_PASSWORD", a.password),
     ("DB_PORT", toString a.port)]
  | .aurora a =>
    [("DB_CONNECTION", "mysql"),
     ("DB_HOST", a.host),
     ("DB_DATABASE", a.database),
     ("DB_USERNAME", a.username),
     ("DB_PASSWORD", a.password),
     ("DB_PORT", toString a.port)]
  | .rdsInstance a =>
    [("DB_CONNECTION", "mysql"),
     ("DB_HOST", a.endpoint),
     ("DB_DATABASE", a.dbName),
     ("DB_USERNAME", a.username),
     ("DB_PASSWORD", a.password),
     ("DB_PORT", toString a.port)]

/-- Embedding of `applyDatabaseEnv` (`src/laravel-env.ts`):

* `database instanceof Postgres || (database instanceof Aurora && port ===
  5432)` returns `applyPostgresEnv(database)`;
* `database instanceof Mysql || (database instanceof Aurora && port ===
  3306) || database instanceof pulumiAws.rds.Instance` returns
  `applyMySqlEnv(database)`;
* otherwise `{}`.

The `port` local is the resolved value of `database.port`. -/
def applyDatabaseEnv (database : Database) : EnvMap :=
  match database with
  | .postgres a => applyPostgresEnv a
  | .aurora a =>
    if a.port == 5432 then applyPostgresEnv a
    else if a.port == 3306 then applyMySqlEnv (.aurora a)
    else []
  | .mysql a => applyMySqlEnv (.mysql a)
  | .rdsInstance a => applyMySqlEnv (.rdsInstance a)

/-- Embedding of `applyRedisEnv` (`src/laravel-env.ts`): the host is wrapped
in `tls://` when truthy (non-empty), else the empty string. -/
def applyRedisEnv (database : RedisAttrs) : EnvMap :=
  [("REDIS_HOST", if database.host != "" then "tls://" ++ database.host else ""),
   ("REDIS_PORT", toString database.port),
   ("REDIS_PASSWORD", database.password)]

/-- Embedding of `applyEmailEnv` (`src/laravel-env.ts`). -/
def applyEmailEnv (_mail : Unit) : EnvMap :=
  [("MAIL_MAILER", "ses")]

/-- Embedding of `applyQueueEnv` (`src/laravel-env.ts`). -/
def applyQueueEnv (url : String) : EnvMap :=
  [("SQS_QUEUE", url)]

/-- Embedding of `applyBucketEnv` (`src/laravel-env.ts`). -/
def applyBucketEnv (name : String) : EnvMap :=
  [("FILESYSTEM_DISK", "s3"),
   ("AWS_BUCKET", name)]

/-- Optional per-kind override callbacks (`EnvCallbacks` in
`src/laravel-env.ts`).  The `mysql` member exists in the source type but is
never consulted by `applyLinkedResourcesEnv`. -/
structure EnvCallbacks where
  postgres : Option (DbAttrs → EnvMap) := none
  mysql : Option (DbAttrs → EnvMap) := none
  redis : Option (RedisAttrs → EnvMap) := none
  email : Option (Unit → EnvMap) := none
  queue : Option (String → EnvMap) := none

/-- One iteration of the `links.forEach` loop in `applyLinkedResourcesEnv`:
each recognised resource kind spreads its default map and then its optional
callback result over the accumulator; every other kind leaves the
accumulator untouched. -/
def applyLinkedResourcesStep (callbacks : EnvCallbacks) (environment : EnvMap)
    (link : LinkResource) : EnvMap :=
  match link with
  | .postgres a =>
    objMerge (objMerge environment (applyDatabaseEnv (.postgres a)))
      (match callbacks.postgres with | some cb => cb a | none => [])
  | .redis a =>
    objMerge (objMerge environment (applyRedisEnv a))
      (match callbacks.redis with | some cb => cb a | none => [])
  | .email =>
    objMerge (objMerge environment (applyEmailEnv ()))
      (match callbacks.email with | some cb => cb () | none => [])
  | .queue url =>
    objMerge (objMerge environment (applyQueueEnv url))
      (match callbacks.queue with | some cb => cb url | none => [])
  | .bucket name =>
    objMerge environment (applyBucketEnv name)
  | _ => environment

/-- Embedding of `applyLinkedResourcesEnv` (`src/laravel-env.ts`): fold the
per-link step over the link list, starting from the empty object.  The
`callbacks` parameter is optional in the source and defaults to absent. -/
def applyLinkedResourcesEnv (links : List LinkResource)
    (callbacks : EnvCallbacks := {}) : EnvMap :=
  links.foldl (applyLinkedResourcesStep callbacks) []

/-- An entry of `args.link` in `laravel-sst.ts`: either a bare resource, or
an object carrying a `resource` member.  JS objects are structurally typed,
so the object form may carry an `environment` callback (the member named by
the declared `LaravelArgs` type and by the API documentation) and/or an
`envCallback` member (the name the implementation actually reads); either
may be absent. -/
inductive Link
  | bare (resource : LinkResource)
  | pair (resource : LinkResource)
      (environment : Option (LinkResource → EnvMap))
      (envCallback : Option (LinkResource → EnvMap))

/-- Resource carried by a link entry (`'resource' in link ? link.resource :
link`). -/
def Link.resource : Link → LinkResource
  | .bare r => r
  | .pair r _ _ => r

/-- The `customEnv` accumulator of `applyLinkedResourcesToEnvironment`
(`laravel-sst.ts`): for each object-form link the code tests
`link.envCallback` — not the documented `environment` member — and
`Object.assign`s its result into the accumulator. -/
def customEnvOfLinks (links : List Link) : EnvMap :=
  links.foldl (fun acc link =>
    match link with
    | .pair r _ (some cb) => objMerge acc (cb r)
    | _ => acc) []

/-- Embedding of `applyLinkedResourcesToEnvironment` (`laravel-sst.ts`,
LaravelService): collect the resources, accumulate `customEnv` from the
`envCallback` members, and spread `customEnv` over the defaults computed by
`applyLinkedResourcesEnv(resources)` (called without callbacks).  The result
is the map whose entries the `all(...)` block appends to the on-disk `.env`
overlay. -/
def applyLinkedResourcesToEnvironment (links : List Link) : EnvMap :=
  objMerge (applyLinkedResourcesEnv (links.map Link.resource) {})
    (customEnvOfLinks links)

/-- Serialisation of the resolved map into `KEY=value` lines inside the
`all(...).apply` block of `applyLinkedResourcesToEnvironment`. -/
def envContent (m : EnvMap) : String :=
  String.intercalate "\n" (m.map (fun p => p.1 ++ "=" ++ p.2))

/-- The `args.web.domain` input (`Input<string | {name, cert?, dns?}>`). -/
inductive WebDomain
  | str (s : String)
  | obj (name : String)
deriving DecidableEq, Repr

/-- JS truthiness of a domain value: the empty string is falsy, objects are
always truthy. -/
def WebDomain.truthy : WebDomain → Bool
  | .str s => s != ""
  | .obj _ => true

/-- The members of `args.web` relevant to environment resolution. -/
structure WebArgs where
  domain : Option WebDomain := none

/-- The members of `args.config.environment` (LaravelService). -/
structure EnvironmentConfig where
  file : Option String := none
  autoInject : Option Bool := none
  vars : EnvMap := []

/-- One entry of `workerConfig.tasks`. -/
structure TaskConfig where
  command : String
  dependencies : Option (List String) := none
deriving DecidableEq, Repr

/-- The members of a `LaravelWorkerConfig` relevant to task building. -/
structure WorkerConfig where
  name : Option String := none
  horizon : Bool := false
  scheduler : Bool := false
  tasks : List (String × TaskConfig) := []
deriving DecidableEq, Repr

/-- The members of `LaravelArgs` this development reasons about. -/
structure LaravelArgs where
  link : List Link := []
  web : Option WebArgs := none
  workers : List WorkerConfig := []
  config : EnvironmentConfig := {}

/-- Embedding of `getEnvironmentVariables` (`laravel-sst.ts`,
LaravelService): start from `args.config?.environment?.vars || {}`; when
`args.web?.domain` is truthy and is a plain string `s`, assign
`APP_URL = https://<s>`; an object-form domain leaves the map unchanged
(the object branch is commented out in the source). -/
def getEnvironmentVariables (args : LaravelArgs) : EnvMap :=
  let env := args.config.vars
  match args.web with
  | some web =>
    match web.domain with
    | some d =>
      if d.truthy then
        match d with
        | .str s => objSet env "APP_URL" ("https://" ++ s)
        | .obj _ => env
      else env
    | none => env
  | none => env

/-- Environment map handed to the web container (`addWebService` passes
`getEnvironmentVariables()` as the service environment). -/
def webServiceEnvironment (args : LaravelArgs) : EnvMap :=
  getEnvironmentVariables args

/-- Environment map handed to each worker container (`createWorkerService`
passes `getEnvironmentVariables()` as the service environment; the worker
config itself is not consulted). -/
def workerServiceEnvironment (args : LaravelArgs) (_workerConfig : WorkerConfig) :
    EnvMap :=
  getEnvironmentVariables args

/-- The `! args.config?.environment?.autoInject === false` test in
`prepareEnvironmentFile`.  JS `!` binds tighter than `===`, so the branch
runs exactly when `autoInject` is literally `true` (`!true === false`). -/
def autoInjectGate (autoInject : Option Bool) : Bool :=
  (match autoInject with
   | some b => !b
   | none => true) == false

/-- Text appended to the on-disk `.env` overlay during plan generation:
`prepareEnvironmentFile` returns early when no environment file is
configured; otherwise, when the autoInject test passes, it calls
`applyLinkedResourcesToEnvironment`, whose `all(...)` block appends a
newline plus the serialised entries — skipping the append when the
serialised content is empty. -/
def envFileAppend (args : LaravelArgs) : String :=
  match args.config.file with
  | none => ""
  | some _ =>
    if autoInjectGate args.config.autoInject then
      let content := envContent (applyLinkedResourcesToEnvironment args.link)
      if content != "" then "\n" ++ content else ""
    else ""

/-- The `tasks` object of `createWorkerTasks` (`laravel-sst.ts`): spread the
user-declared task map into a fresh object, then assign the builtin
`laravel-horizon` and `laravel-scheduler` entries when their flags are set
(the assignments run after the spread). -/
def createWorkerTasksMap (workerConfig : WorkerConfig) :
    List (String × TaskConfig) :=
  let tasks := objMerge [] workerConfig.tasks
  let tasks := if workerConfig.horizon then
      objSet tasks "laravel-horizon" { command := "php artisan horizon" }
    else tasks
  let tasks := if workerConfig.scheduler then
      objSet tasks "laravel-scheduler" { command := "php artisan schedule:work" }
    else tasks
  tasks

/-- On-disk descriptor written for one task by `createWorkerTasks`: the
four fixed-name files of its `s6-rc.d` directory plus the autostart marker
under `user/contents.d`. -/
structure SupervisionRecord where
  name : String
  script : String
  run : String
  type : String
  dependencies : String
deriving DecidableEq, Repr

/-- Embedding of the `Object.entries(tasks).forEach` emission loop of
`createWorkerTasks` (`laravel-sst.ts`): one record per task, with the fixed
shell preamble and working-directory change before the literal command, the
fixed `execlineb` run wrapper, type `longrun`, and the dependency names
joined with newlines (the empty string when the list is absent or empty). -/
def createWorkerTasks (workerConfig : WorkerConfig) : List SupervisionRecord :=
  (createWorkerTasksMap workerConfig).map (fun p =>
    { name := p.1
      script := "#!/command/with-contenv bash\ncd /var/www/html\n" ++ p.2.command
      run := "#!/command/execlineb -P\n/etc/s6-overlay/s6-rc.d/" ++ p.1 ++ "/script"
      type := "longrun"
      dependencies := String.intercalate "\n" (p.2.dependencies.getD []) })

/-- First container of an ECS task as the locator sees it. -/
structure Container where
  name : Option String := none
deriving DecidableEq, Repr

/-- A running ECS task as returned by `DescribeTasks`. -/
structure EcsTask where
  taskArn : Option String := none
  containers : List Container := []
  lastStatus : Option String := none
deriving DecidableEq, Repr

/-- Service-hint suffix derivation in `findTask` (`bin/utils`): hint `web`
gives `-web`, hint `worker` gives `-worker`, anything else gives
`-<hint>`. -/
def servicePrefixOf (service : String) : String :=
  if service == "web" then "-web"
  else if service == "worker" then "-worker"
  else "-" ++ service

/-- Match predicate inside `describeTasksResponse.tasks?.find(...)`: the
first container's name (or the empty string), lowercased, contains the
lowercased service suffix. -/
def taskMatchesService (service : String) (task : EcsTask) : Bool :=
  let containerName := (task.containers.head?.bind Container.name).getD ""
  strContains (strLower containerName) (strLower (servicePrefixOf service))

/-- Outcome of `findTask`: the zero-running-tasks abort, a direct selection,
or the interactive fallback presenting a list of choices (one per running
task) for the operator to pick from. -/
inductive FindTaskResult
  | noRunningTasks
  | selected (task : EcsTask)
  | interactive (choices : List EcsTask)
deriving DecidableEq, Repr

/-- Embedding of `findTask` (`bin/utils`): abort when the cluster has no
running tasks; otherwise, when a service hint is given, `find` the first
task whose first container name contains the derived suffix
(case-insensitively); when that yields a task it is returned directly, and
otherwise — no hint, or a hint with zero matches — the interactive fallback
is entered over one choice per running task. -/
def findTask (tasks : List EcsTask) (service : Option String) : FindTaskResult :=
  if tasks.isEmpty then .noRunningTasks
  else
    let matchingTask := match service with
      | some s => tasks.find? (taskMatchesService s)
      | none => none
    match matchingTask with
    | some t => .selected t
    | none => .interactive tasks

/-- The hyphen-stripping step of `findClusterArn`: the global regex replace
of `-` with the empty string applied to `components[0]`. -/
def stripHyphens (s : String) : String :=
  ⟨s.data.filter (fun c => c != '-')⟩

/-- The `arn.split('/').pop()` step of `findClusterArn`: the trailing
segment of an ARN, i.e. the characters after the last `/` (the whole string
when no `/` occurs, the empty string after a trailing `/`). -/
def lastSegment (s : String) : String :=
  ⟨s.data.foldl (fun acc c => if c = '/' then [] else acc ++ [c]) []⟩

/-- Pattern string `${stage}-${componentName}Cluster` that `findClusterArn`
logs before matching. -/
def clusterPattern (stage componentName : String) : String :=
  stage ++ "-" ++ componentName ++ "Cluster"

/-- Match predicate of `listClustersResponse.clusterArns.find(...)`: the
ARN's trailing segment contains both the stage and the (hyphen-stripped)
component name as substrings. -/
def clusterNameMatches (stage componentName : String) (arn : String) : Bool :=
  let clusterName := lastSegment arn
  strContains clusterName stage && strContains clusterName componentName

/-- Outcome of `findClusterArn`: the explicit `--cluster` pass-through, the
four `process.exit(1)` diagnostics, or the auto-detected cluster ARN. -/
inductive FindClusterResult
  | provided (arn : String)
  | errNoComponents
  | errMultipleComponents
  | errNoClusters
  | errNotFound
  | found (arn : String)
deriving DecidableEq, Repr

/-- Embedding of `findClusterArn` (`bin/utils`), taking the Laravel
components extracted from the SST config and the ARNs returned by
`ListClusters` as inputs: an explicit cluster option short-circuits;
zero or multiple components abort; otherwise the component name is
hyphen-stripped and the first ARN whose trailing segment contains both the
stage and the component name is selected, aborting with the not-found
diagnostic when no ARN matches. -/
def findClusterArn (stage : String) (clusterOption : Option String)
    (components : List String) (clusterArns : List String) : FindClusterResult :=
  match clusterOption with
  | some c => .provided c
  | none =>
    if components.length == 0 then .errNoComponents
    else if components.length > 1 then .errMultipleComponents
    else
      let componentName := stripHyphens (components.headD "")
      if clusterArns.isEmpty then .errNoClusters
      else
        match clusterArns.find? (clusterNameMatches stage componentName) with
        | some arn => .found arn
        | none => .errNotFound

/-! ### Generic facts about the JS object model -/

theorem keys_map_replace (m : List (String × α)) (k : String) (v : α) :
    (m.map (fun p => if p.1 == k then (k, v) else p)).map Prod.fst = m.map Prod.fst := by
  induction m with
  | nil => rfl
  | cons p t ih =>
    simp only [List.map_cons, ih]
    congr 1
    by_cases hp : p.1 = k
    · simp [hp]
    · simp [hp]

theorem mem_keys_iff_any (m : List (String × α)) (k : String) :
    m.any (fun p => p.1 == k) = true ↔ k ∈ m.map Prod.fst := by
  simp [List.any_eq_true, List.mem_map, beq_iff_eq]

theorem mem_keys_tail {p : String × α} {t : List (String × α)} {k : String}
    (hk : k ∈ (p :: t).map Prod.fst) (hp : p.1 ≠ k) : k ∈ t.map Prod.fst := by
  simp only [List.map_cons, List.mem_cons] at hk
  rcases hk with hk | hk
  · exact absurd hk.symm hp
  · exact hk

theorem find?_map_replace_self (m : List (String × α)) (k : String) (v : α)
    (hk : k ∈ m.map Prod.fst) :
    (m.map (fun p => if p.1 == k then (k, v) else p)).find? (fun p => p.1 == k)
      = some (k, v) := by
  induction m with
  | nil => simp at hk
  | cons p t ih =>
    simp only [List.map_cons]
    by_cases hp : p.1 = k
    · rw [if_pos (by simp [hp])]
      exact List.find?_cons_of_pos _ (by simp)
    · rw [if_neg (by simp [hp])]
      rw [List.find?_cons_of_neg _ (by simp [hp])]
      exact ih (mem_keys_tail hk hp)

theorem find?_eq_none_of_not_mem_keys (m : List (String × α)) (k : String)
    (hk : k ∉ m.map Prod.fst) :
    m.find? (fun p => p.1 == k) = none := by
  rw [List.find?_eq_none]
  intro p hp h
  exact hk (List.mem_map.mpr ⟨p, hp, by simpa using h⟩)

theorem objGet_objSet_self (m : List (String × α)) (k : String) (v : α) :
    objGet (objSet m k v) k = some v := by
  unfold objGet objSet
  by_cases h : k ∈ m.map Prod.fst
  · rw [if_pos ((mem_keys_iff_any m k).mpr h), find?_map_replace_self m k v h]
    rfl
  · rw [if_neg (fun hc => h ((mem_keys_iff_any m k).mp hc))]
    rw [List.find?_append, find?_eq_none_of_not_mem_keys m k h]
    simp [List.find?]

theorem mem_objSet {m : List (String × α)} {k : String} {v : α} {p : String × α}
    (h : p ∈ objSet m k v) : p ∈ m ∨ p = (k, v) := by
  unfold objSet at h
  by_cases hany : (m.any fun q => q.1 == k) = true
  · rw [if_pos hany] at h
    obtain ⟨q, hq, hqe⟩ := List.mem_map.mp h
    by_cases hk : q.1 = k
    · right
      rw [← hqe]
      simp [hk]
    · left
      rw [← hqe]
      simpa [hk] using hq
  · rw [if_neg hany] at h
    rcases List.mem_append.mp h with h' | h'
    · exact Or.inl h'
    · exact Or.inr (by simpa using h')

theorem filter_eq_nil_of_not_mem_keys (m : List (String × α)) (k : String)
    (hk : k ∉ m.map Prod.fst) :
    m.filter (fun p => p.1 == k) = [] := by
  rw [List.filter_eq_nil_iff]
  intro p hp h
  exact hk (List.mem_map.mpr ⟨p, hp, by simpa using h⟩)

theorem filter_map_replace_self (m : List (String × α)) (k : String) (v : α)
    (hnd : (m.map Prod.fst).Nodup) (hk : k ∈ m.map Prod.fst) :
    (m.map (fun p => if p.1 == k then (k, v) else p)).filter (fun p => p.1 == k)
      = [(k, v)] := by
  induction m with
  | nil => simp at hk
  | cons p t ih =>
    simp only [List.map_cons, List.nodup_cons] at hnd
    simp only [List.map_cons]
    by_cases hp : p.1 = k
    · have hkt : k ∉ t.map Prod.fst := hp ▸ hnd.1
      have htail : (t.map (fun p => if p.1 == k then (k, v) else p)).filter
          (fun p => p.1 == k) = [] := by
        apply filter_eq_nil_of_not_mem_keys
        rw [keys_map_replace]
        exact hkt
      rw [if_pos (by simp [hp])]
      rw [List.filter_cons_of_pos (by simp), htail]
    · rw [if_neg (by simp [hp])]
      rw [List.filter_cons_of_neg (by simp [hp])]
      exact ih hnd.2 (mem_keys_tail hk hp)

theorem filter_objSet_self (m : List (String × α)) (k : String) (v : α)
    (hnd : (m.map Prod.fst).Nodup) :
    (objSet m k v).filter (fun p => p.1 == k) = [(k, v)] := by
  unfold objSet
  by_cases h : k ∈ m.map Prod.fst
  · rw [if_pos ((mem_keys_iff_any m k).mpr h)]
    exact filter_map_replace_self m k v hnd h
  · rw [if_neg (fun hc => h ((mem_keys_iff_any m k).mp hc))]
    rw [List.filter_append, filter_eq_nil_of_not_mem_keys m k h]
    simp

theorem filter_map_replace_ne (m : List (String × α)) (k : String) (v : α)
    (k' : String) (hne : k' ≠ k) :
    (m.map (fun p => if p.1 == k then (k, v) else p)).filter (fun p => p.1 == k')
      = m.filter (fun p => p.1 == k') := by
  induction m with
  | nil => rfl
  | cons p t ih =>
    simp only [List.map_cons]
    by_cases hp : p.1 = k
    · rw [if_pos (by simp [hp])]
      rw [List.filter_cons_of_neg (by simpa using Ne.symm hne)]
      rw [List.filter_cons_of_neg (by simp [hp]; exact fun hc => hne hc.symm)]
      exact ih
    · rw [if_neg (by simp [hp])]
      by_cases hp' : p.1 = k'
      · rw [List.filter_cons_of_pos (by simp [hp']), List.filter_cons_of_pos (by simp [hp'])]
        rw [ih]
      · rw [List.filter_cons_of_neg (by simp [hp']), List.filter_cons_of_neg (by simp [hp'])]
        exact ih

theorem filter_objSet_ne (m : List (String × α)) (k : String) (v : α)
    (k' : String) (hne : k' ≠ k) :
    (objSet m k v).filter (fun p => p.1 == k') = m.filter (fun p => p.1 == k') := by
  unfold objSet
  by_cases h : (m.any fun p => p.1 == k) = true
  · rw [if_pos h]
    exact filter_map_replace_ne m k v k' hne
  · rw [if_neg h]
    rw [List.filter_append]
    rw [List.filter_cons_of_neg (by simpa using Ne.symm hne)]
    simp

theorem keys_objSet_nodup (m : List (String × α)) (k : String) (v : α)
    (hnd : (m.map Prod.fst).Nodup) :
    ((objSet m k v).map Prod.fst).Nodup := by
  unfold objSet
  by_cases h : (m.any fun p => p.1 == k) = true
  · rw [if_pos h, keys_map_replace]
    exact hnd
  · rw [if_neg h]
    have hk : k ∉ m.map Prod.fst := fun hc => h ((mem_keys_iff_any m k).mpr hc)
    simp [List.nodup_append, hnd, hk]

theorem keys_objMerge_nodup (l : List (String × α)) (a : List (String × α))
    (hnd : (a.map Prod.fst).Nodup) :
    ((objMerge a l).map Prod.fst).Nodup := by
  induction l generalizing a with
  | nil => exact hnd
  | cons p t ih => exact ih _ (keys_objSet_nodup a p.1 p.2 hnd)

theorem createWorkerTasksMap_eq (w : WorkerConfig) :
    createWorkerTasksMap w =
      (if w.scheduler = true then
        objSet
          (if w.horizon = true then
            objSet (objMerge [] w.tasks) "laravel-horizon"
              { command := "php artisan horizon" }
          else objMerge [] w.tasks)
          "laravel-scheduler" { command := "php artisan schedule:work" }
      else
        (if w.horizon = true then
          objSet (objMerge [] w.tasks) "laravel-horizon"
            { command := "php artisan horizon" }
        else objMerge [] w.tasks)) := rfl

theorem createWorkerTasksMap_keys_nodup (w : WorkerConfig) :
    ((createWorkerTasksMap w).map Prod.fst).Nodup := by
  unfold createWorkerTasksMap
  have h0 : ((objMerge [] w.tasks).map Prod.fst).Nodup :=
    keys_objMerge_nodup w.tasks [] List.nodup_nil
  by_cases hh : w.horizon
  · by_cases hs : w.scheduler
    · simp only [hh, hs, if_pos]
      exact keys_objSet_nodup _ _ _ (keys_objSet_nodup _ _ _ h0)
    · simp only [hh, hs, if_pos, if_neg]
      exact keys_objSet_nodup _ _ _ h0
  · by_cases hs : w.scheduler
    · simp only [hh, hs]
      simp only [if_neg, if_pos]
      exact keys_objSet_nodup _ _ _ h0
    · simp only [hh, hs, if_neg]
      exact h0

/-! ### Claim theorems -/

/-- C4: for a postgres-family database resource with host `db.local`, port
5432, database `app`, username `u`, password `p` and no explicit variables,
the resolved environment map contains exactly the six connection keys
`DB_CONNECTION=pgsql`, `DB_HOST=db.local`, `DB_DATABASE=app`,
`DB_USERNAME=u`, `DB_PASSWORD=p`, `DB_PORT=5432`, the port serialised as a
decimal string (the spec names the keys without their `DB_` prefix). -/
theorem applyLinkedResourcesEnv_postgres_end_to_end :
    applyLinkedResourcesEnv [.postgres ⟨"db.local", "app", "u", "p", 5432⟩] {} =
      [("DB_CONNECTION", "pgsql"), ("DB_HOST", "db.local"), ("DB_DATABASE", "app"),
       ("DB_USERNAME", "u"), ("DB_PASSWORD", "p"), ("DB_PORT", "5432")] := by
  decide

/-- C7: for a worker with `horizon` and `scheduler` both set and zero
user-declared tasks, `createWorkerTasks` produces exactly two supervision
records, named exactly `laravel-horizon` and `laravel-scheduler`, each of
type `longrun` and with an empty `dependencies` payload. -/
theorem createWorkerTasks_builtins_only :
    createWorkerTasks { horizon := true, scheduler := true } =
      [{ name := "laravel-horizon",
         script := "#!/command/with-contenv bash\ncd /var/www/html\nphp artisan horizon",
         run := "#!/command/execlineb -P\n/etc/s6-overlay/s6-rc.d/laravel-horizon/script",
         type := "longrun", dependencies := "" },
       { name := "laravel-scheduler",
         script := "#!/command/with-contenv bash\ncd /var/www/html\nphp artisan schedule:work",
         run := "#!/command/execlineb -P\n/etc/s6-overlay/s6-rc.d/laravel-scheduler/script",
         type := "longrun", dependencies := "" }] := by
  decide

/-- C1: evaluation at the failing input.  A link binding supplied in the
documented `{resource, environment}` shape — the shape declared by
`LaravelArgs.link` and shown in the API reference — has its override
callback silently ignored, because `applyLinkedResourcesToEnvironment`
reads the member `envCallback` instead of `environment`: the resolved map
keeps the default `DB_HOST` value.  The second conjunct shows the same
callback is honoured when smuggled in under the undocumented `envCallback`
member, isolating the member-name mismatch as the cause. -/
theorem applyLinkedResourcesToEnvironment_ignores_documented_override :
    objGet (applyLinkedResourcesToEnvironment
      [.pair (.postgres ⟨"db.local", "app", "u", "p", 5432⟩)
        (some (fun _ => [("DB_HOST", "override.example.com")])) none]) "DB_HOST"
      = some "db.local" ∧
    objGet (applyLinkedResourcesToEnvironment
      [.pair (.postgres ⟨"db.local", "app", "u", "p", 5432⟩)
        none (some (fun _ => [("DB_HOST", "override.example.com")]))]) "DB_HOST"
      = some "override.example.com" :=
  ⟨rfl, rfl⟩

/-- C2 counterexample: a worker with the `horizon` builtin flag set and a
user-declared task under the reserved name `laravel-horizon` (command
`custom`) builds a task set whose single `laravel-horizon` entry carries the
builtin command `php artisan horizon`, not the user-declared command — the
builtin assignment runs after the user map is spread, so the claim's
"explicit user tasks take precedence" fails. -/
theorem createWorkerTasksMap_builtin_overwrites_user_counterexample :
    createWorkerTasksMap
        { horizon := true, tasks := [("laravel-horizon", { command := "custom" })] } =
      [("laravel-horizon", { command := "php artisan horizon" })] ∧
    objGet (createWorkerTasksMap
        { horizon := true, tasks := [("laravel-horizon", { command := "custom" })] })
        "laravel-horizon" ≠ some { command := "custom" } := by
  decide

/-- C2 (amended): for every worker whose builtin flag (`horizon` or
`scheduler`) is set and whose user-declared task map also contains the
corresponding reserved name, the built task set contains exactly one task
with that name, and its command is the builtin command — the builtins are
assigned after the user task map is spread, so they overwrite same-named
user tasks. -/
theorem createWorkerTasksMap_builtin_wins (w : WorkerConfig) :
    (w.horizon = true → ∀ c : TaskConfig, objGet w.tasks "laravel-horizon" = some c →
      (createWorkerTasksMap w).filter (fun p => p.1 == "laravel-horizon")
        = [("laravel-horizon", { command := "php artisan horizon" })]) ∧
    (w.scheduler = true → ∀ c : TaskConfig, objGet w.tasks "laravel-scheduler" = some c →
      (createWorkerTasksMap w).filter (fun p => p.1 == "laravel-scheduler")
        = [("laravel-scheduler", { command := "php artisan schedule:work" })]) := by
  have h0 : ((objMerge [] w.tasks).map Prod.fst).Nodup :=
    keys_objMerge_nodup w.tasks [] List.nodup_nil
  constructor
  · intro hh _c _hc
    rw [createWorkerTasksMap_eq, if_pos hh]
    by_cases hs : w.scheduler = true
    · rw [if_pos hs]
      rw [filter_objSet_ne _ _ _ _ (by decide)]
      exact filter_objSet_self _ _ _ h0
    · rw [if_neg hs]
      exact filter_objSet_self _ _ _ h0
  · intro hs _c _hc
    rw [createWorkerTasksMap_eq, if_pos hs]
    by_cases hh : w.horizon = true
    · rw [if_pos hh]
      exact filter_objSet_self _ _ _ (keys_objSet_nodup _ _ _ h0)
    · rw [if_neg hh]
      exact filter_objSet_self _ _ _ h0

/-- Witness for the amended C2 theorem at a concrete worker. -/
theorem createWorkerTasksMap_builtin_wins_witness :
    (createWorkerTasksMap
        { horizon := true, tasks := [("laravel-horizon", { command := "custom" })] }).filter
        (fun p => p.1 == "laravel-horizon")
      = [("laravel-horizon", { command := "php artisan horizon" })] :=
  (createWorkerTasksMap_builtin_wins
    { horizon := true, tasks := [("laravel-horizon", { command := "custom" })] }).1
    rfl { command := "custom" } (by decide)

/-- C6 counterexample: with a web domain configured in object form and an
explicit `APP_URL`, `getEnvironmentVariables` keeps the explicit value — no
domain-derived `APP_URL` (neither `https://`-prefixed nor verbatim) is set,
so the claim's "for every configured web domain" fails. -/
theorem getEnvironmentVariables_object_domain_counterexample :
    objGet (getEnvironmentVariables
      { web := some { domain := some (.obj "example.com") },
        config := { vars := [("APP_URL", "http://explicit")] } }) "APP_URL"
      = some "http://explicit" ∧
    some "http://explicit" ≠ some "https://example.com" ∧
    some "http://explicit" ≠ some "example.com" := by
  refine ⟨rfl, by decide, by decide⟩

/-- C6 (amended): for every web domain configured as a non-empty plain
string and every explicit variable map, the domain-derived `APP_URL`
(`https://<domain>` in this component) is assigned last and wins over any
`APP_URL` supplied in the explicit variables; an object-form domain derives
nothing and leaves an explicit `APP_URL` in place. -/
theorem getEnvironmentVariables_string_domain_wins (args : LaravelArgs) (s n : String)
    (hs : s ≠ "") :
    (args.web = some { domain := some (.str s) } →
      objGet (getEnvironmentVariables args) "APP_URL" = some ("https://" ++ s)) ∧
    (args.web = some { domain := some (.obj n) } →
      objGet (getEnvironmentVariables args) "APP_URL" = objGet args.config.vars "APP_URL") := by
  constructor
  · intro hweb
    unfold getEnvironmentVariables
    rw [hweb]
    have ht : (WebDomain.str s).truthy = true := by
      simp [WebDomain.truthy, hs]
    simp only [ht, if_pos]
    exact objGet_objSet_self _ _ _
  · intro hweb
    unfold getEnvironmentVariables
    rw [hweb]
    rfl

/-- Witness for the amended C6 theorem: the derived `APP_URL` replaces the
explicit one for a string domain, and the explicit one survives an
object-form domain. -/
theorem getEnvironmentVariables_string_domain_wins_witness :
    objGet (getEnvironmentVariables
      { web := some { domain := some (.str "example.com") },
        config := { vars := [("APP_URL", "http://explicit")] } }) "APP_URL"
      = some "https://example.com" ∧
    objGet (getEnvironmentVariables
      { web := some { domain := some (.obj "example.com") },
        config := { vars := [("APP_URL", "http://explicit")] } }) "APP_URL"
      = objGet [("APP_URL", "http://explicit")] "APP_URL" :=
  ⟨(getEnvironmentVariables_string_domain_wins
      { web := some { domain := some (.str "example.com") },
        config := { vars := [("APP_URL", "http://explicit")] } }
      "example.com" "unused" (by decide)).1 rfl,
   (getEnvironmentVariables_string_domain_wins
      { web := some { domain := some (.obj "example.com") },
        config := { vars := [("APP_URL", "http://explicit")] } }
      "unused" "example.com" (by decide)).2 rfl⟩

/-- C5: the resource-to-environment mapping is total (every Lean function
here is) and never fails: a generic relational resource with no explicit
kind tag (an `Aurora` instance in `applyDatabaseEnv`) is classified by its
resolved port — 5432 yields the postgres-family map, 3306 the mysql-family
map — while an unmatched port yields the empty map, and a resource of a
kind unknown to `applyLinkedResourcesEnv` leaves the accumulated
environment untouched. -/
theorem applyDatabaseEnv_port_classification (a : DbAttrs) (env : EnvMap)
    (cbs : EnvCallbacks) :
    (a.port = 5432 → applyDatabaseEnv (.aurora a) = applyPostgresEnv a) ∧
    (a.port = 3306 → applyDatabaseEnv (.aurora a) = applyMySqlEnv (.aurora a)) ∧
    (a.port ≠ 5432 → a.port ≠ 3306 → applyDatabaseEnv (.aurora a) = []) ∧
    applyLinkedResourcesStep cbs env .unknown = env := by
  refine ⟨?_, ?_, ?_, rfl⟩
  · intro h
    simp only [applyDatabaseEnv]
    rw [if_pos (by simp [h])]
  · intro h
    simp only [applyDatabaseEnv]
    rw [if_neg (by simp [h]), if_pos (by simp [h])]
  · intro h5 h3
    simp only [applyDatabaseEnv]
    rw [if_neg (by simp [h5]), if_neg (by simp [h3])]

/-- Witness for the C5 theorem at concrete inputs: an unmatched port (9999)
contributes the empty map, and an unknown resource kind leaves the
environment unchanged. -/
theorem applyDatabaseEnv_port_classification_witness :
    applyDatabaseEnv (.aurora ⟨"h", "d", "u", "p", 9999⟩) = [] ∧
    applyLinkedResourcesStep {} [("A", "b")] .unknown = [("A", "b")] :=
  ⟨(applyDatabaseEnv_port_classification ⟨"h", "d", "u", "p", 9999⟩ [("A", "b")] {}).2.2.1
      (by decide) (by decide),
   (applyDatabaseEnv_port_classification ⟨"h", "d", "u", "p", 9999⟩ [("A", "b")] {}).2.2.2⟩

/-- C8: for every declared task, the emitted supervision record carries the
task's dependency names verbatim, newline-joined (the empty string when the
list is absent or empty), with no side condition on whether the names refer
to declared tasks — dependency names are never validated, filtered, or
rejected. -/
theorem createWorkerTasks_dependencies_passthrough (w : WorkerConfig)
    (n : String) (c : TaskConfig) (h : (n, c) ∈ createWorkerTasksMap w) :
    ({ name := n,
       script := "#!/command/with-contenv bash\ncd /var/www/html\n" ++ c.command,
       run := "#!/command/execlineb -P\n/etc/s6-overlay/s6-rc.d/" ++ n ++ "/script",
       type := "longrun",
       dependencies := String.intercalate "\n" (c.dependencies.getD []) } : SupervisionRecord)
      ∈ createWorkerTasks w := by
  unfold createWorkerTasks
  exact List.mem_map.mpr ⟨(n, c), h, rfl⟩

/-- Witness for the C8 theorem: a task whose dependency list names two
tasks that do not exist anywhere in the worker still gets its record, with
both names preserved verbatim and newline-joined. -/
theorem createWorkerTasks_dependencies_passthrough_witness :
    ({ name := "app-task",
       script := "#!/command/with-contenv bash\ncd /var/www/html\nphp artisan queue:work",
       run := "#!/command/execlineb -P\n/etc/s6-overlay/s6-rc.d/app-task/script",
       type := "longrun",
       dependencies := "no-such-task\nother-missing" } : SupervisionRecord)
      ∈ createWorkerTasks
        { tasks := [("app-task",
            { command := "php artisan queue:work",
              dependencies := some ["no-such-task", "other-missing"] })] } := by
  simpa using createWorkerTasks_dependencies_passthrough
    { tasks := [("app-task",
        { command := "php artisan queue:work",
          dependencies := some ["no-such-task", "other-missing"] })] }
    "app-task"
    { command := "php artisan queue:work",
      dependencies := some ["no-such-task", "other-missing"] }
    (by decide)

/-- C10: the environment map passed to a running container (web or worker)
consists only of the operator's explicit variables plus possibly the
domain-derived `APP_URL`; it is independent of `args.link`, so the default
variables resolved from linked resources never reach it — they are only
appended to the on-disk overlay, and `prepareEnvironmentFile` returns early
(appending nothing) when no environment file is configured. -/
theorem containerEnvironment_excludes_linked_defaults (args : LaravelArgs)
    (w : WorkerConfig) (l : List Link) :
    (∀ k v, (k, v) ∈ webServiceEnvironment args →
      (k, v) ∈ args.config.vars ∨ k = "APP_URL") ∧
    workerServiceEnvironment args w = webServiceEnvironment args ∧
    webServiceEnvironment { args with link := l } = webServiceEnvironment args ∧
    (args.config.file = none → envFileAppend args = "") := by
  refine ⟨?_, rfl, rfl, ?_⟩
  · intro k v hkv
    unfold webServiceEnvironment getEnvironmentVariables at hkv
    rcases args with ⟨link, web, workers, config⟩
    cases web with
    | none => exact Or.inl hkv
    | some wa =>
      rcases wa with ⟨dom⟩
      cases dom with
      | none => exact Or.inl hkv
      | some d =>
        cases d with
        | obj nm => exact Or.inl hkv
        | str s =>
          have hkv' : (k, v) ∈ (if (s != "") = true then
              objSet config.vars "APP_URL" ("https://" ++ s) else config.vars) := hkv
          by_cases hs' : (s != "") = true
          · rw [if_pos hs'] at hkv'
            rcases mem_objSet hkv' with h' | h'
            · exact Or.inl h'
            · exact Or.inr (congrArg Prod.fst h')
          · rw [if_neg hs'] at hkv'
            exact Or.inl hkv'
  · intro h
    unfold envFileAppend
    rw [h]

/-- Witness for the C10 theorem: a concrete plan with a linked database but
no environment file — the web container's single variable comes from the
explicit vars, and nothing is appended to the overlay. -/
theorem containerEnvironment_excludes_linked_defaults_witness :
    ((("SESSION_DRIVER", "redis") ∈
        ({ link := [.bare (.postgres ⟨"h", "d", "u", "p", 5432⟩)],
           config := { vars := [("SESSION_DRIVER", "redis")] } } : LaravelArgs).config.vars) ∨
      "SESSION_DRIVER" = "APP_URL") ∧
    envFileAppend
      { link := [.bare (.postgres ⟨"h", "d", "u", "p", 5432⟩)],
        config := { vars := [("SESSION_DRIVER", "redis")] } } = "" :=
  ⟨(containerEnvironment_excludes_linked_defaults
      { link := [.bare (.postgres ⟨"h", "d", "u", "p", 5432⟩)],
        config := { vars := [("SESSION_DRIVER", "redis")] } } {} []).1
      "SESSION_DRIVER" "redis" (by decide),
   (containerEnvironment_excludes_linked_defaults
      { link := [.bare (.postgres ⟨"h", "d", "u", "p", 5432⟩)],
        config := { vars := [("SESSION_DRIVER", "redis")] } } {} []).2.2.2 rfl⟩

/-- C3 counterexample: two running tasks both match the hint `web`
(container names `app-Web-1` and `app-web-2`, matched case-insensitively),
yet `findTask` returns the first match directly instead of deferring to
interactive selection — the claim's "multiple tasks remain ambiguous ⇒
interactive" fails, as does its "selects a task if and only if it matches"
reading, since the second matching task is never selected. -/
theorem findTask_multiple_matches_counterexample :
    taskMatchesService "web" { containers := [{ name := some "app-Web-1" }] } = true ∧
    taskMatchesService "web" { containers := [{ name := some "app-web-2" }] } = true ∧
    findTask
        [{ containers := [{ name := some "app-Web-1" }] },
         { containers := [{ name := some "app-web-2" }] }] (some "web")
      = .selected { containers := [{ name := some "app-Web-1" }] } := by
  decide

/-- C3 (amended): over a non-empty list of running tasks, a selected task is
a running task whose first container's name contains the derived suffix,
compared case-insensitively (and it is the first such task in listing
order); whenever some task matches, one is selected; when the hint matches
zero tasks, or no hint is given, `findTask` defers to interactive selection
exposing exactly the full running-task list, one choice per task; and the
derived suffixes are `-web`, `-worker`, and `-<hint>` for any other hint. -/
theorem findTask_selection_and_fallback (tasks : List EcsTask) (s : String)
    (hne : tasks ≠ []) :
    (∀ t, findTask tasks (some s) = .selected t →
      t ∈ tasks ∧ taskMatchesService s t = true ∧
        tasks.find? (taskMatchesService s) = some t) ∧
    ((∃ t ∈ tasks, taskMatchesService s t = true) →
      ∃ t, findTask tasks (some s) = .selected t) ∧
    ((∀ t ∈ tasks, taskMatchesService s t = false) →
      findTask tasks (some s) = .interactive tasks) ∧
    findTask tasks none = .interactive tasks ∧
    servicePrefixOf "web" = "-web" ∧
    servicePrefixOf "worker" = "-worker" ∧
    (s ≠ "web" → s ≠ "worker" → servicePrefixOf s = "-" ++ s) := by
  have hemp : tasks.isEmpty = false := by
    cases tasks with
    | nil => exact absurd rfl hne
    | cons a l => rfl
  have hred : findTask tasks (some s) =
      (match tasks.find? (taskMatchesService s) with
       | some t => .selected t
       | none => .interactive tasks) := by
    unfold findTask
    rw [hemp]
    rfl
  have hredN : findTask tasks none = .interactive tasks := by
    unfold findTask
    rw [hemp]
    rfl
  refine ⟨?_, ?_, ?_, hredN, rfl, rfl, ?_⟩
  · intro t h
    rw [hred] at h
    cases hf : tasks.find? (taskMatchesService s) with
    | none =>
      rw [hf] at h
      simp at h
    | some u =>
      rw [hf] at h
      simp only [FindTaskResult.selected.injEq] at h
      subst h
      exact ⟨List.mem_of_find?_eq_some hf, List.find?_some hf, rfl⟩
  · rintro ⟨t, ht, hm⟩
    have : (tasks.find? (taskMatchesService s)).isSome :=
      List.find?_isSome.mpr ⟨t, ht, hm⟩
    obtain ⟨u, hu⟩ := Option.isSome_iff_exists.mp this
    refine ⟨u, ?_⟩
    rw [hred, hu]
  · intro hall
    have hf : tasks.find? (taskMatchesService s) = none :=
      List.find?_eq_none.mpr (fun t ht => by simp [hall t ht])
    rw [hred, hf]
  · intro hw hk
    unfold servicePrefixOf
    rw [if_neg (by simpa using hw), if_neg (by simpa using hk)]

/-- Witness for the amended C3 theorem at a concrete one-task cluster: a
non-matching hint falls back to the interactive list over all running
tasks, and so does the absence of a hint. -/
theorem findTask_selection_and_fallback_witness :
    findTask [{ containers := [{ name := some "app-worker-1" }] }] (some "web")
      = .interactive [{ containers := [{ name := some "app-worker-1" }] }] ∧
    findTask [{ containers := [{ name := some "app-worker-1" }] }] none
      = .interactive [{ containers := [{ name := some "app-worker-1" }] }] :=
  ⟨(findTask_selection_and_fallback
      [{ containers := [{ name := some "app-worker-1" }] }] "web"
      (by decide)).2.2.1 (by decide),
   (findTask_selection_and_fallback
      [{ containers := [{ name := some "app-worker-1" }] }] "web"
      (by decide)).2.2.2.1⟩

/-- C9: `findClusterArn` derives the logged pattern by stripping hyphens
from the single declared component and concatenating — stage `production`
and component `MyApp` derive `production-MyAppCluster` — selects a cluster
ARN exactly when its trailing segment contains both the stage and the
hyphen-stripped component name as substrings, and fails with the not-found
diagnostic when no ARN of a non-empty cluster list matches. -/
theorem findClusterArn_pattern_and_matching (stage comp : String)
    (arns : List String) (hne : arns ≠ []) :
    clusterPattern "production" (stripHyphens "MyApp") = "production-MyAppCluster" ∧
    (∀ arn, findClusterArn stage none [comp] arns = .found arn →
      arn ∈ arns ∧
      strContains (lastSegment arn) stage = true ∧
      strContains (lastSegment arn) (stripHyphens comp) = true) ∧
    ((∃ a ∈ arns, clusterNameMatches stage (stripHyphens comp) a = true) →
      ∃ arn, findClusterArn stage none [comp] arns = .found arn) ∧
    ((∀ a ∈ arns, clusterNameMatches stage (stripHyphens comp) a = false) →
      findClusterArn stage none [comp] arns = .errNotFound) := by
  have hemp : arns.isEmpty = false := by
    cases arns with
    | nil => exact absurd rfl hne
    | cons a l => rfl
  have hred : findClusterArn stage none [comp] arns =
      (match arns.find? (clusterNameMatches stage (stripHyphens comp)) with
       | some arn => .found arn
       | none => .errNotFound) := by
    unfold findClusterArn
    rw [hemp]
    rfl
  refine ⟨by decide, ?_, ?_, ?_⟩
  · intro arn h
    rw [hred] at h
    cases hf : arns.find? (clusterNameMatches stage (stripHyphens comp)) with
    | none =>
      rw [hf] at h
      simp at h
    | some u =>
      rw [hf] at h
      simp only [FindClusterResult.found.injEq] at h
      subst h
      have hm := List.find?_some hf
      have hmem := List.mem_of_find?_eq_some hf
      refine ⟨hmem, ?_, ?_⟩
      · have := (Bool.and_eq_true _ _).mp (by simpa [clusterNameMatches] using hm)
        exact this.1
      · have := (Bool.and_eq_true _ _).mp (by simpa [clusterNameMatches] using hm)
        exact this.2
  · rintro ⟨a, ha, hm⟩
    have : (arns.find? (clusterNameMatches stage (stripHyphens comp))).isSome :=
      List.find?_isSome.mpr ⟨a, ha, hm⟩
    obtain ⟨u, hu⟩ := Option.isSome_iff_exists.mp this
    refine ⟨u, ?_⟩
    rw [hred, hu]
  · intro hall
    have hf : arns.find? (clusterNameMatches stage (stripHyphens comp)) = none :=
      List.find?_eq_none.mpr (fun a ha => by simp [hall a ha])
    rw [hred, hf]

/-- Witness for the C9 theorem: the matching ARN in a singleton cluster
list is auto-detected, and a list whose only ARN does not match yields the
not-found diagnostic. -/
theorem findClusterArn_pattern_and_matching_witness :
    (∃ arn, findClusterArn "production" none ["MyApp"]
        ["arn:aws:ecs:us-east-1:1:cluster/production-MyAppCluster-abc"] = .found arn) ∧
    findClusterArn "production" none ["MyApp"]
        ["arn:aws:ecs:us-east-1:1:cluster/sandbox-OtherCluster"] = .errNotFound :=
  ⟨(findClusterArn_pattern_and_matching "production" "MyApp"
      ["arn:aws:ecs:us-east-1:1:cluster/production-MyAppCluster-abc"] (by decide)).2.2.1
      ⟨"arn:aws:ecs:us-east-1:1:cluster/production-MyAppCluster-abc",
        List.mem_singleton.mpr rfl, by decide⟩,
   (findClusterArn_pattern_and_matching "production" "MyApp"
      ["arn:aws:ecs:us-east-1:1:cluster/sandbox-OtherCluster"] (by decide)).2.2.2
      (by decide)⟩

end SstLaravel
